import Mathlib

/-!
Verification of the channel registry, reorder engine, pipeline spec builder,
stream-supervisor backoff and HTTP delivery endpoint of the PlexDVR
RSTP/IPTV bridge (source file `plex_cam_gateway_gui_v_7_9_1_a.py`).

The Python source is shallowly embedded.  Python strings are `String`,
Python lists are `List`, the mutable global registry `CHANNELS` is passed
explicitly as a `List Channel`, and the GUI handlers' registry mutations
are modelled as functions from a registry to a registry.  Python `str`
operations used by the source (`lower`, `strip`, `startswith`, `isdigit`,
`int(...)`, `str(...)`, `split`, `join`, `urllib.parse` and
`urllib.parse.quote`) are modelled over the underlying character lists so
that everything reduces in the kernel.
-/

namespace PlexCam

/-- Python `str.lower()` (per-character lowering, as used on URL schemes). -/
def pyLower (s : String) : String := String.mk (s.data.map Char.toLower)

/-- Python `str.strip()`: drop leading and trailing whitespace. -/
def pyStrip (s : String) : String :=
  String.mk (((s.data.dropWhile Char.isWhitespace).reverse.dropWhile Char.isWhitespace).reverse)

/-- Python `s.startswith(pre)`, modelled over the character lists. -/
def strStarts (s pre : String) : Bool := pre.data.isPrefixOf s.data

/-- Python `str.isdigit()` (nonempty and all decimal digits). -/
def isDigitStr (s : String) : Bool := !s.data.isEmpty && s.data.all Char.isDigit

/-- Python `int(s)` for a digit string. -/
def strToNatM (s : String) : Nat := s.data.foldl (fun a c => 10 * a + (c.toNat - 48)) 0

/-- Little-endian base-10 digits, with explicit fuel so that it reduces in
the kernel.  `natDigitsRev n` uses fuel `n`, which always suffices. -/
def natDigitsRevF : Nat → Nat → List Nat
  | 0, n => [n % 10]
  | fuel + 1, n => if n < 10 then [n] else (n % 10) :: natDigitsRevF fuel (n / 10)

/-- Python `str(n)` for a natural number (canonical base-10 rendering). -/
def natToStrM (n : Nat) : String :=
  String.mk ((natDigitsRevF n n).reverse.map (fun d => Char.ofNat (48 + d)))

lemma chr_toNat_of_lt (d : Nat) (hd : d < 10) : (Char.ofNat (48 + d)).toNat = 48 + d := by
  interval_cases d <;> decide

lemma chr_isDigit_of_lt (d : Nat) (hd : d < 10) : (Char.ofNat (48 + d)).isDigit = true := by
  interval_cases d <;> decide

lemma natDigitsRevF_foldr (fuel : Nat) :
    ∀ n, n ≤ fuel →
      (natDigitsRevF fuel n).foldr (fun d a => 10 * a + ((Char.ofNat (48 + d)).toNat - 48)) 0 = n := by
  induction fuel with
  | zero =>
    intro n hn
    have : n = 0 := Nat.le_zero.mp hn
    subst this
    decide
  | succ fuel ih =>
    intro n hn
    by_cases h : n < 10
    · simp only [natDigitsRevF, if_pos h, List.foldr]
      rw [chr_toNat_of_lt n h]
      omega
    · have hdiv : n / 10 ≤ fuel := by
        have := Nat.div_lt_self (by omega : 0 < n) (by omega : 1 < 10)
        omega
      simp only [natDigitsRevF, if_neg h, List.foldr]
      rw [ih (n / 10) hdiv, chr_toNat_of_lt (n % 10) (Nat.mod_lt n (by omega))]
      omega

lemma natDigitsRevF_lt (fuel : Nat) :
    ∀ n, ∀ d ∈ natDigitsRevF fuel n, n ≤ fuel → d < 10 := by
  induction fuel with
  | zero =>
    intro n d hd _
    simp only [natDigitsRevF, List.mem_singleton] at hd
    subst hd
    exact Nat.mod_lt n (by omega)
  | succ fuel ih =>
    intro n d hd hn
    by_cases h : n < 10
    · simp only [natDigitsRevF, if_pos h, List.mem_singleton] at hd
      omega
    · simp only [natDigitsRevF, if_neg h, List.mem_cons] at hd
      rcases hd with hd | hd
      · subst hd
        exact Nat.mod_lt n (by omega)
      · have hdiv : n / 10 ≤ fuel := by
          have := Nat.div_lt_self (by omega : 0 < n) (by omega : 1 < 10)
          omega
        exact ih (n / 10) d hd hdiv

/-- `int(str(n)) = n`: the rendering used by `_next_channel_id` round-trips. -/
lemma strToNatM_natToStrM (n : Nat) : strToNatM (natToStrM n) = n := by
  unfold strToNatM natToStrM
  show ((natDigitsRevF n n).reverse.map (fun d => Char.ofNat (48 + d))).foldl
      (fun a c => 10 * a + (c.toNat - 48)) 0 = n
  rw [List.foldl_map, List.foldl_reverse]
  exact natDigitsRevF_foldr n n (Nat.le_refl n)

/-- `str(n).isdigit()` holds for the rendering used by `_next_channel_id`. -/
lemma isDigitStr_natToStrM (n : Nat) : isDigitStr (natToStrM n) = true := by
  unfold isDigitStr natToStrM
  have hne : natDigitsRevF n n ≠ [] := by
    cases hf : n with
    | zero => simp [natDigitsRevF]
    | succ m => simp only [natDigitsRevF]; split <;> simp
  rw [Bool.and_eq_true]
  constructor
  · simp only [Bool.not_eq_true']
    show ((natDigitsRevF n n).reverse.map (fun d => Char.ofNat (48 + d))).isEmpty = false
    simp [List.isEmpty_iff, hne]
  · show ((natDigitsRevF n n).reverse.map (fun d => Char.ofNat (48 + d))).all Char.isDigit = true
    rw [List.all_eq_true]
    intro c hc
    rw [List.mem_map] at hc
    obtain ⟨d, hd, rfl⟩ := hc
    rw [List.mem_reverse] at hd
    exact chr_isDigit_of_lt d (natDigitsRevF_lt n n d hd (Nat.le_refl n))

/-- Legal values of the `transport` attribute (`TRANSPORTS` in the source). -/
def TRANSPORTS : List String := ["Auto", "TCP", "UDP"]

/-- Legal values of the `auth_mode` attribute (`AUTH_MODES` in the source). -/
def AUTH_MODES : List String := ["Auto", "Header-Basic"]

/-- The channel data model (class `Channel`).  All attributes assigned by
`Channel.__init__` are modelled; the `None`-able optional attributes use the
empty string / `Option.none` exactly as the constructor normalises them. -/
structure Channel where
  id : String
  name : String
  rtsp : String
  transport : String
  username : String
  password : String
  auth_mode : String
  transcode_audio : Bool
  tvg_id : String
  tvg_logo : String
  epg_title : String
  epg_desc : String
  mosaic_sources : Option (List String)
  status : String
  status_detail : String
deriving DecidableEq

/-- `Channel.__init__`: normalisation of the constructor arguments
(`name or f"Channel {ch_id}"`, transport/auth-mode whitelists, the
`or`-defaults of `tvg_id`/`epg_title`, and `list(mosaic_sources) if
mosaic_sources else None`). -/
def mkChannel (ch_id name rtsp transport username password auth_mode : String)
    (transcode_audio : Bool) (tvg_id : Option String) (tvg_logo : String)
    (epg_title : Option String) (epg_desc : String)
    (mosaic_sources : Option (List String)) : Channel :=
  let name' := if name = "" then "Channel " ++ ch_id else name
  { id := ch_id
    name := name'
    rtsp := rtsp
    transport := if transport ∈ TRANSPORTS then transport else "Auto"
    username := username
    password := password
    auth_mode := if auth_mode ∈ AUTH_MODES then auth_mode else "Auto"
    transcode_audio := transcode_audio
    tvg_id := match tvg_id with
      | some t => if t = "" then "cam." ++ ch_id else t
      | none => "cam." ++ ch_id
    tvg_logo := tvg_logo
    epg_title := match epg_title with
      | some t => if t = "" then name' else t
      | none => name'
    epg_desc := epg_desc
    mosaic_sources := match mosaic_sources with
      | some [] => none
      | some l => some l
      | none => none
    status := "Idle"
    status_detail := "" }

/-- Python `list.insert(n, a)` (appends when `n` is past the end). -/
def pyInsert (n : Nat) (a : α) : List α → List α
  | [] => [a]
  | x :: xs =>
    match n with
    | 0 => a :: x :: xs
    | m + 1 => x :: pyInsert m a xs

/-- The assignment loop at the end of `reorder_rows`: positions
`lo .. lo + span_ids.length - 1` of `afterMove` receive `span_ids` in
order; every other position is untouched. -/
def spanAssign (afterMove : List Channel) (lo : Nat) (span_ids : List String) : List Channel :=
  afterMove.take lo
    ++ List.zipWith (fun c i => { c with id := i }) (afterMove.drop lo) span_ids
    ++ afterMove.drop (lo + span_ids.length)

/-- `MainWindow.reorder_rows`: relocate the entry at `src` to `dst`
(`pop`/`insert`), then re-assign to the contiguous position span
`[min src dst, max src dst]` the identifiers that this span of positions
held *before* the move, in order.  Out-of-range indices are a no-op. -/
def reorder_rows (chs : List Channel) (src dst : Nat) : List Channel :=
  if h : src < chs.length ∧ dst < chs.length then
    spanAssign (pyInsert dst (chs.get ⟨src, h.1⟩) (chs.eraseIdx src)) (min src dst)
      (((chs.map (fun c => c.id)).drop (min src dst)).take (max src dst + 1 - min src dst))
  else chs

/-- A plain single-source channel used in concrete scenarios. -/
def testChan (i nm : String) : Channel :=
  { id := i, name := nm, rtsp := "rtsp://cam/" ++ i, transport := "Auto",
    username := "", password := "", auth_mode := "Auto", transcode_audio := true,
    tvg_id := "cam." ++ i, tvg_logo := "", epg_title := nm, epg_desc := "Live feed",
    mosaic_sources := none, status := "Idle", status_detail := "" }

/-- The reference registry of §8 of the spec: identifiers 1..5 in order. -/
def reg5 : List Channel :=
  [testChan "1" "a", testChan "2" "b", testChan "3" "c", testChan "4" "d", testChan "5" "e"]

/-- C1, counterexample: on the registry [1,2,3,4,5], `reorder(0,3)` yields
the identifier sequence [1,2,3,4,5] read in the new entry order — not
[2,3,4,1,5] as the claim states — and `reorder(3,0)` likewise yields
[1,2,3,4,5], not [4,1,2,3,5].  The span re-assignment of
`MainWindow.reorder_rows` always restores the positional identifier
sequence. -/
theorem c1_reorder_counterexample :
    ((reorder_rows reg5 0 3).map (fun c => c.id) = ["1", "2", "3", "4", "5"]
      ∧ (reorder_rows reg5 0 3).map (fun c => c.id) ≠ ["2", "3", "4", "1", "5"])
    ∧ ((reorder_rows reg5 3 0).map (fun c => c.id) = ["1", "2", "3", "4", "5"]
      ∧ (reorder_rows reg5 3 0).map (fun c => c.id) ≠ ["4", "1", "2", "3", "5"]) := by
  decide

/-- C1, amended: on a Registry holding channels with identifiers
[1,2,3,4,5] in entry order, `reorder(0, 3)` relocates the first entry to
position 3 but re-assigns identifiers so that the identifier sequence read
in the new entry order is again [1,2,3,4,5]: the entries formerly at
positions 1..3 advance one slot and receive the identifiers 1,2,3 formerly
held at positions 0..2, and the moved entry receives identifier 4.
Symmetrically `reorder(3, 0)` also yields [1,2,3,4,5], the moved entry
receiving identifier 1 and the displaced entries identifiers 2,3,4. -/
theorem c1_reorder_amended :
    reorder_rows reg5 0 3 =
      [{ testChan "2" "b" with id := "1" }, { testChan "3" "c" with id := "2" },
        { testChan "4" "d" with id := "3" }, { testChan "1" "a" with id := "4" },
        testChan "5" "e"]
    ∧ reorder_rows reg5 3 0 =
      [{ testChan "4" "d" with id := "1" }, { testChan "1" "a" with id := "2" },
        { testChan "2" "b" with id := "3" }, { testChan "3" "c" with id := "4" },
        testChan "5" "e"] := by
  decide

/-- `MainWindow._validate_source`: accepted stream-source URLs. -/
def validate_source (url : String) : Bool :=
  let u := pyStrip (pyLower url)
  strStarts u "rtsp://" || strStarts u "http://" || strStarts u "https://"

/-- `MainWindow._next_channel_id`: one plus the maximum of the numeric
(all-digit) identifiers, or 101 when there is none.  (`max(nums)` of a
nonempty list of naturals is its fold by `Nat.max` from 0.) -/
def next_channel_id (chs : List Channel) : String :=
  let nums := (chs.filter (fun c => isDigitStr c.id)).map (fun c => strToNatM c.id)
  if nums.isEmpty then "101" else natToStrM (nums.foldl Nat.max 0 + 1)

/-- `MainWindow.on_edit_number` (the state change after the input dialog):
reject a non-digit or out-of-range number, reject a duplicate
(`new != old` while `new` is already in use) leaving the registry
unchanged, and otherwise overwrite the row's identifier. -/
def on_edit_number (chs : List Channel) (row : Nat) (new_id : String) : List Channel :=
  if h : row < chs.length then
    if ¬(isDigitStr new_id = true ∧ 1 ≤ strToNatM new_id ∧ strToNatM new_id ≤ 99999) then chs
    else if (chs.any fun c => c.id == new_id) = true ∧ new_id ≠ (chs.get ⟨row, h⟩).id then chs
    else chs.set row { chs.get ⟨row, h⟩ with id := new_id }
  else chs

/-- `MainWindow.on_add` (the state change after the dialogs): validate the
URL and append a channel whose identifier is `_next_channel_id()`. -/
def on_add (chs : List Channel) (url name transport username password auth_mode : String)
    (transcode_audio : Bool) : List Channel :=
  if validate_source url then
    chs ++ [mkChannel (next_channel_id chs) name url transport username password auth_mode
      transcode_audio none "" none "Live feed" none]
  else chs

/-- A registry-mutating operation of the kind claim C3 quantifies over. -/
inductive RegOp where
  | add (url name transport username password auth_mode : String) (transcode_audio : Bool)
  | set_id (row : Nat) (new_id : String)

def applyOp (chs : List Channel) : RegOp → List Channel
  | .add url name tr u p am ta => on_add chs url name tr u p am ta
  | .set_id row new_id => on_edit_number chs row new_id

def applyOps (chs : List Channel) (ops : List RegOp) : List Channel :=
  ops.foldl applyOp chs

lemma le_foldl_max (l : List Nat) : ∀ (a : Nat), a ≤ l.foldl Nat.max a := by
  induction l with
  | nil => intro a; simp
  | cons b t ih =>
    intro a
    calc a ≤ Nat.max a b := Nat.le_max_left a b
    _ ≤ (b :: t).foldl Nat.max a := ih (Nat.max a b)

lemma mem_le_foldl_max (l : List Nat) : ∀ (a : Nat), ∀ x ∈ l, x ≤ l.foldl Nat.max a := by
  induction l with
  | nil => intro a x hx; cases hx
  | cons b t ih =>
    intro a x hx
    rcases List.mem_cons.mp hx with rfl | hx
    · calc x ≤ Nat.max a x := Nat.le_max_right a x
      _ ≤ t.foldl Nat.max (Nat.max a x) := le_foldl_max t (Nat.max a x)
    · exact ih (Nat.max a b) x hx

/-- `_next_channel_id` is fresh: no present channel carries it. -/
lemma next_channel_id_fresh (chs : List Channel) :
    ∀ c ∈ chs, c.id ≠ next_channel_id chs := by
  intro c hc heq
  unfold next_channel_id at heq
  set nums := (chs.filter (fun c => isDigitStr c.id)).map (fun c => strToNatM c.id) with hnums
  by_cases hemp : nums.isEmpty
  · rw [if_pos hemp] at heq
    have hdig : isDigitStr c.id = true := by rw [heq]; decide
    have : strToNatM c.id ∈ nums := by
      rw [hnums]
      exact List.mem_map_of_mem _ (List.mem_filter.mpr ⟨hc, hdig⟩)
    rw [List.isEmpty_iff] at hemp
    rw [hemp] at this
    cases this
  · rw [if_neg hemp] at heq
    have hdig : isDigitStr c.id = true := by rw [heq]; exact isDigitStr_natToStrM _
    have hmem : strToNatM c.id ∈ nums := by
      rw [hnums]
      exact List.mem_map_of_mem _ (List.mem_filter.mpr ⟨hc, hdig⟩)
    have hle : strToNatM c.id ≤ nums.foldl Nat.max 0 := mem_le_foldl_max nums 0 _ hmem
    rw [heq, strToNatM_natToStrM] at hle
    omega

lemma set_self_of_getElem (l : List α) : ∀ (n : Nat) (h : n < l.length), l.set n l[n] = l := by
  induction l with
  | nil => intro n h; cases h
  | cons b t ih =>
    intro n h
    cases n with
    | zero => rfl
    | succ m => simpa using ih m (by simpa using h)

lemma nodup_on_edit_number (chs : List Channel) (row : Nat) (new_id : String)
    (h : (chs.map (fun c => c.id)).Nodup) :
    ((on_edit_number chs row new_id).map (fun c => c.id)).Nodup := by
  unfold on_edit_number
  split
  · split
    · exact h
    · split
      · exact h
      · rename_i hrow _ hrej
        rw [not_and_or] at hrej
        rw [List.map_set]
        rcases hrej with hany | hold
        · have hnot : new_id ∉ chs.map (fun c => c.id) := by
            intro hmem
            apply hany
            obtain ⟨c, hcmem, hcid⟩ := List.mem_map.mp hmem
            rw [List.any_eq_true]
            exact ⟨c, hcmem, by simp [hcid]⟩
          exact h.set hnot
        · rw [not_not] at hold
          have hlen : row < (chs.map (fun c => c.id)).length := by
            simpa using hrow
          have : (chs.map (fun c => c.id))[row] = new_id := by
            rw [hold]
            simp [List.getElem_map]
          rw [show ({ chs.get ⟨row, hrow⟩ with id := new_id } : Channel).id = new_id from rfl,
            ← this, set_self_of_getElem _ row hlen]
          exact h
  · exact h

lemma nodup_on_add (chs : List Channel)
    (url name tr u p am : String) (ta : Bool)
    (h : (chs.map (fun c => c.id)).Nodup) :
    ((on_add chs url name tr u p am ta).map (fun c => c.id)).Nodup := by
  unfold on_add
  split
  · rw [List.map_append, List.nodup_append]
    refine ⟨h, by simp, ?_⟩
    intro a ha hb
    simp only [List.map_cons, List.map_nil, List.mem_singleton] at hb
    obtain ⟨c, hc, hcid⟩ := List.mem_map.mp ha
    have hid : (mkChannel (next_channel_id chs) name url tr u p am ta none "" none
        "Live feed" none).id = next_channel_id chs := rfl
    rw [hb, hid] at hcid
    exact next_channel_id_fresh chs c hc hcid
  · exact h

lemma nodup_applyOps (ops : List RegOp) :
    ∀ chs : List Channel, (chs.map (fun c => c.id)).Nodup →
      ((applyOps chs ops).map (fun c => c.id)).Nodup := by
  induction ops with
  | nil => intro chs h; exact h
  | cons op rest ih =>
    intro chs h
    show ((applyOps (applyOp chs op) rest).map (fun c => c.id)).Nodup
    apply ih
    cases op with
    | add url name tr u p am ta => exact nodup_on_add chs url name tr u p am ta h
    | set_id row new_id => exact nodup_on_edit_number chs row new_id h

/-- C3: starting from a duplicate-free Registry, every sequence of
`add`/`set_id` operations keeps the identifiers duplicate-free; `set_id`
with a new identifier that differs from the old one and is already in use
leaves the registry unchanged (the duplicate-id rejection); `add` appends
a channel carrying the fresh identifier `_next_channel_id()`, which is
"101" when no all-digit identifier exists and otherwise renders the
maximum numeric identifier plus one. -/
theorem c3_identifier_uniqueness (chs : List Channel)
    (hnd : (chs.map (fun c => c.id)).Nodup) :
    (∀ ops : List RegOp, ((applyOps chs ops).map (fun c => c.id)).Nodup)
    ∧ (∀ (row : Nat) (new_id : String) (hrow : row < chs.length),
        new_id ≠ (chs.get ⟨row, hrow⟩).id → new_id ∈ chs.map (fun c => c.id) →
        on_edit_number chs row new_id = chs)
    ∧ (∀ url name tr u p am ta, validate_source url = true →
        on_add chs url name tr u p am ta
          = chs ++ [mkChannel (next_channel_id chs) name url tr u p am ta
              none "" none "Live feed" none]
          ∧ next_channel_id chs ∉ chs.map (fun c => c.id))
    ∧ ((∀ c ∈ chs, isDigitStr c.id = false) → next_channel_id chs = "101")
    ∧ ((∃ c ∈ chs, isDigitStr c.id = true) →
        strToNatM (next_channel_id chs)
          = ((chs.filter (fun c => isDigitStr c.id)).map
              (fun c => strToNatM c.id)).foldl Nat.max 0 + 1) := by
  refine ⟨fun ops => nodup_applyOps ops chs hnd, ?_, ?_, ?_, ?_⟩
  · intro row new_id hrow hne hmem
    unfold on_edit_number
    rw [dif_pos hrow]
    split
    · rfl
    · rw [if_pos]
      constructor
      · rw [List.any_eq_true]
        obtain ⟨c, hc, hcid⟩ := List.mem_map.mp hmem
        exact ⟨c, hc, by simp [hcid]⟩
      · exact hne
  · intro url name tr u p am ta hval
    constructor
    · unfold on_add
      rw [if_pos hval]
    · intro hmem
      obtain ⟨c, hc, hcid⟩ := List.mem_map.mp hmem
      exact next_channel_id_fresh chs c hc hcid
  · intro hall
    unfold next_channel_id
    rw [if_pos]
    rw [List.isEmpty_iff, List.map_eq_nil_iff, List.filter_eq_nil_iff]
    intro c hc
    simp [hall c hc]
  · intro ⟨c, hc, hdig⟩
    unfold next_channel_id
    rw [if_neg, strToNatM_natToStrM]
    rw [List.isEmpty_iff]
    intro hnil
    have : strToNatM c.id ∈ ((chs.filter (fun c => isDigitStr c.id)).map
        (fun c => strToNatM c.id)) :=
      List.mem_map_of_mem _ (List.mem_filter.mpr ⟨hc, hdig⟩)
    rw [hnil] at this
    cases this

/-- C3 witness: a concrete duplicate-free registry stays duplicate-free
under a concrete `add` followed by a `set_id`. -/
theorem c3_identifier_uniqueness_witness :
    ((applyOps [testChan "1" "a", testChan "2" "b"]
        [RegOp.add "rtsp://cam/9" "n" "Auto" "" "" "Auto" true,
          RegOp.set_id 0 "7"]).map (fun c => c.id)).Nodup :=
  (c3_identifier_uniqueness [testChan "1" "a", testChan "2" "b"] (by decide)).1
    [RegOp.add "rtsp://cam/9" "n" "Auto" "" "" "Auto" true, RegOp.set_id 0 "7"]

/-- Forget the identifier of a channel (for stating that nothing but the
identifier is touched). -/
def stripId (c : Channel) : Channel := { c with id := "" }

/-- Standard list-move semantics as worded by the spec: remove the entry
at `from_index` and re-insert it at `to_index`. -/
def listMove (l : List Channel) (src dst : Nat) : List Channel :=
  if h : src < l.length then pyInsert dst (l.get ⟨src, h⟩) (l.eraseIdx src) else l

lemma eraseIdx_append_cons (A : List α) (x : α) (R : List α) :
    (A ++ x :: R).eraseIdx A.length = A ++ R := by
  induction A with
  | nil => rfl
  | cons a t ih =>
    show a :: (t ++ x :: R).eraseIdx t.length = a :: (t ++ R)
    rw [ih]

lemma pyInsert_at_length (L : List α) (C : List α) (x : α) :
    pyInsert L.length x (L ++ C) = L ++ x :: C := by
  induction L with
  | nil => cases C <;> rfl
  | cons a t ih =>
    show a :: pyInsert t.length x (t ++ C) = a :: (t ++ x :: C)
    rw [ih]

lemma zipWith_setId_map_id (B : List Channel) :
    ∀ ids : List String, B.length = ids.length →
      (List.zipWith (fun c i => { c with id := i }) B ids).map (fun c => c.id) = ids := by
  induction B with
  | nil =>
    intro ids h
    cases ids with
    | nil => rfl
    | cons i t => simp at h
  | cons b t ih =>
    intro ids h
    cases ids with
    | nil => simp at h
    | cons i it =>
      rw [List.zipWith_cons_cons, List.map_cons, ih it (by simpa using h)]

lemma zipWith_setId_map_strip (B : List Channel) :
    ∀ ids : List String, B.length = ids.length →
      (List.zipWith (fun c i => { c with id := i }) B ids).map stripId = B.map stripId := by
  induction B with
  | nil => intro ids _; simp
  | cons b t ih =>
    intro ids h
    cases ids with
    | nil => simp at h
    | cons i it =>
      rw [List.zipWith_cons_cons, List.map_cons, List.map_cons, ih it (by simpa using h)]
      rfl

lemma map_id_assigned (A B C : List Channel) (ids : List String) (h : B.length = ids.length) :
    (A ++ List.zipWith (fun (c : Channel) (i : String) => { c with id := i }) B ids ++ C).map
        (fun (c : Channel) => c.id)
      = A.map (fun c => c.id) ++ ids ++ C.map (fun c => c.id) := by
  rw [List.map_append, List.map_append, zipWith_setId_map_id B ids h]

lemma map_strip_assigned (A B C : List Channel) (ids : List String) (h : B.length = ids.length) :
    (A ++ List.zipWith (fun (c : Channel) (i : String) => { c with id := i }) B ids ++ C).map
        stripId
      = A.map stripId ++ B.map stripId ++ C.map stripId := by
  rw [List.map_append, List.map_append, zipWith_setId_map_strip B ids h]

lemma spanAssign_decomp (A B C : List Channel) (ids : List String) (h : B.length = ids.length) :
    spanAssign (A ++ B ++ C) A.length ids =
      A ++ List.zipWith (fun c i => { c with id := i }) B ids ++ C := by
  unfold spanAssign
  have h1 : (A ++ B ++ C).take A.length = A := by
    rw [List.append_assoc, List.take_left]
  have h2 : (A ++ B ++ C).drop A.length = B ++ C := by
    rw [List.append_assoc, List.drop_left]
  have h3 : List.zipWith (fun c i => { c with id := i }) (B ++ C) ids
      = List.zipWith (fun c i => { c with id := i }) B ids := by
    have := List.zipWith_append (fun (c : Channel) (i : String) => { c with id := i }) B C ids [] h
    simpa using this
  have h4 : (A ++ B ++ C).drop (A.length + ids.length) = C := by
    apply List.drop_left'
    rw [List.length_append, h]
  rw [h1, h2, h3, h4]

lemma listMove_decomp_le (A M C : List Channel) (x : Channel) :
    listMove (A ++ x :: (M ++ C)) A.length (A.length + M.length) = A ++ M ++ x :: C := by
  have hsrc : A.length < (A ++ x :: (M ++ C)).length := by simp
  unfold listMove
  rw [dif_pos hsrc]
  have hget : (A ++ x :: (M ++ C)).get ⟨A.length, hsrc⟩ = x := by
    simp [List.get_eq_getElem, List.getElem_append_right (Nat.le_refl A.length)]
  rw [hget, eraseIdx_append_cons, ← List.append_assoc, ← List.length_append A M,
    pyInsert_at_length]

lemma get_middle_ge (A M C : List Channel) (x : Channel)
    (hsrc : A.length + M.length < (A ++ (M ++ x :: C)).length) :
    (A ++ (M ++ x :: C)).get ⟨A.length + M.length, hsrc⟩ = x := by
  rw [List.get_eq_getElem]
  rw [List.getElem_append_right (Nat.le_add_right A.length M.length)]
  rw [List.getElem_append_right (by omega : M.length ≤ A.length + M.length - A.length)]
  simp [Nat.add_sub_cancel_left]

lemma eraseIdx_middle_ge (A M C : List Channel) (x : Channel) :
    (A ++ (M ++ x :: C)).eraseIdx (A.length + M.length) = A ++ (M ++ C) := by
  have h1 : A ++ (M ++ x :: C) = (A ++ M) ++ x :: C := by rw [List.append_assoc]
  have h2 : A.length + M.length = (A ++ M).length := (List.length_append A M).symm
  rw [h1, h2, eraseIdx_append_cons, List.append_assoc]

lemma listMove_decomp_ge (A M C : List Channel) (x : Channel) :
    listMove (A ++ (M ++ x :: C)) (A.length + M.length) A.length = A ++ x :: (M ++ C) := by
  have hsrc : A.length + M.length < (A ++ (M ++ x :: C)).length := by
    simp only [List.length_append, List.length_cons]
    omega
  unfold listMove
  rw [dif_pos hsrc]
  rw [get_middle_ge A M C x hsrc, eraseIdx_middle_ge, pyInsert_at_length A (M ++ C) x]

lemma reorder_rows_decomp_le (A M C : List Channel) (x : Channel) :
    reorder_rows (A ++ x :: (M ++ C)) A.length (A.length + M.length) =
      A ++ List.zipWith (fun c i => { c with id := i }) (M ++ [x])
        ((x :: M).map (fun c => c.id)) ++ C := by
  have hvalid : A.length < (A ++ x :: (M ++ C)).length
      ∧ A.length + M.length < (A ++ x :: (M ++ C)).length := by
    constructor <;> (simp only [List.length_append, List.length_cons]; omega)
  unfold reorder_rows
  rw [dif_pos hvalid]
  have hget : (A ++ x :: (M ++ C)).get ⟨A.length, hvalid.1⟩ = x := by
    simp [List.get_eq_getElem, List.getElem_append_right (Nat.le_refl A.length)]
  rw [hget, eraseIdx_append_cons, min_eq_left (Nat.le_add_right _ _),
    max_eq_right (Nat.le_add_right _ _)]
  rw [← List.append_assoc, ← List.length_append A M, pyInsert_at_length, List.length_append]
  have hspan : (((A ++ x :: (M ++ C)).map (fun c => c.id)).drop A.length).take
      (A.length + M.length + 1 - A.length) = (x :: M).map (fun c => c.id) := by
    rw [List.map_append, List.drop_left' (List.length_map A _),
      show A.length + M.length + 1 - A.length = M.length + 1 from by omega,
      show (x :: (M ++ C)).map (fun c => c.id)
          = (x :: M).map (fun c => c.id) ++ C.map (fun c => c.id) from by simp]
    exact List.take_left' (by simp)
  rw [hspan]
  rw [show (A ++ M) ++ x :: C = A ++ (M ++ [x]) ++ C from by simp]
  exact spanAssign_decomp A (M ++ [x]) C _ (by simp)

lemma reorder_rows_decomp_ge (A M C : List Channel) (x : Channel) :
    reorder_rows (A ++ (M ++ x :: C)) (A.length + M.length) A.length =
      A ++ List.zipWith (fun c i => { c with id := i }) (x :: M)
        ((M ++ [x]).map (fun c => c.id)) ++ C := by
  have hvalid : A.length + M.length < (A ++ (M ++ x :: C)).length
      ∧ A.length < (A ++ (M ++ x :: C)).length := by
    constructor <;> (simp only [List.length_append, List.length_cons]; omega)
  unfold reorder_rows
  rw [dif_pos hvalid]
  rw [get_middle_ge A M C x hvalid.1, eraseIdx_middle_ge,
    min_eq_right (Nat.le_add_right _ _), max_eq_left (Nat.le_add_right _ _)]
  rw [pyInsert_at_length A (M ++ C) x]
  have hspan : (((A ++ (M ++ x :: C)).map (fun c => c.id)).drop A.length).take
      (A.length + M.length + 1 - A.length) = (M ++ [x]).map (fun c => c.id) := by
    rw [List.map_append, List.drop_left' (List.length_map A _),
      show A.length + M.length + 1 - A.length = M.length + 1 from by omega,
      show (M ++ x :: C).map (fun c => c.id)
          = (M ++ [x]).map (fun c => c.id) ++ C.map (fun c => c.id) from by simp]
    exact List.take_left' (by simp)
  rw [hspan]
  rw [show A ++ x :: (M ++ C) = A ++ (x :: M) ++ C from by simp]
  exact spanAssign_decomp A (x :: M) C _ (by simp)

/-- C2: for valid distinct indices, `reorder_rows` (i) leaves the
positional identifier sequence unchanged — equivalently, the contiguous
span of positions between the two indices (inclusive) carries exactly the
pre-move identifier sequence of that span, in order; (ii) apart from the
identifiers, the entries are exactly the standard list-move of the
original entries, so no channel field other than the identifier changes;
(iii) entries strictly below and strictly above the span keep their
position and all their fields. -/
theorem c2_reorder_identity_contract (chs : List Channel) (src dst : Nat)
    (hsrc : src < chs.length) (hdst : dst < chs.length) (hne : src ≠ dst) :
    (reorder_rows chs src dst).map (fun c => c.id) = chs.map (fun c => c.id)
    ∧ (reorder_rows chs src dst).map stripId = (listMove chs src dst).map stripId
    ∧ (reorder_rows chs src dst).take (min src dst) = chs.take (min src dst)
    ∧ (reorder_rows chs src dst).drop (max src dst + 1) = chs.drop (max src dst + 1) := by
  rcases Nat.lt_or_ge src dst with hlt | hge
  · -- src < dst
    set A := chs.take src with hAdef
    set x := chs.get ⟨src, hsrc⟩ with hxdef
    set M := (chs.drop (src + 1)).take (dst - src) with hMdef
    set C := chs.drop (dst + 1) with hCdef
    have hA : A.length = src := by
      rw [hAdef, List.length_take]; omega
    have hM : M.length = dst - src := by
      rw [hMdef, List.length_take, List.length_drop]; omega
    have hs2 : (chs.drop (src + 1)).drop (dst - src) = chs.drop (dst + 1) := by
      rw [List.drop_drop]
      congr 1
      omega
    have hdrop2 : chs.drop (src + 1) = M ++ C := by
      conv_lhs => rw [← List.take_append_drop (dst - src) (chs.drop (src + 1))]
      rw [hs2, hMdef, hCdef]
    have hdrop1 : chs.drop src = x :: (M ++ C) := by
      rw [List.drop_eq_getElem_cons hsrc, ← hdrop2]
      rfl
    have hchs : chs = A ++ x :: (M ++ C) := by
      conv_lhs => rw [← List.take_append_drop src chs]
      rw [hdrop1, hAdef]
    have hsrcA : src = A.length := hA.symm
    have hdstAM : dst = A.length + M.length := by omega
    have hre : reorder_rows chs src dst
        = A ++ List.zipWith (fun (c : Channel) (i : String) => { c with id := i }) (M ++ [x])
            ((x :: M).map (fun c => c.id)) ++ C := by
      rw [hsrcA, hdstAM]
      conv_lhs => rw [hchs]
      exact reorder_rows_decomp_le A M C x
    have hmv : listMove chs src dst = A ++ M ++ x :: C := by
      rw [hsrcA, hdstAM]
      conv_lhs => rw [hchs]
      exact listMove_decomp_le A M C x
    have hzlen : (M ++ [x]).length = ((x :: M).map (fun c => c.id)).length := by simp
    refine ⟨?_, ?_, ?_, ?_⟩
    · rw [hre, map_id_assigned A (M ++ [x]) C _ hzlen]
      conv_rhs => rw [hchs]
      simp
    · rw [hre, hmv, map_strip_assigned A (M ++ [x]) C _ hzlen]
      simp
    · rw [hre, Nat.min_eq_left (Nat.le_of_lt hlt)]
      conv_rhs => rw [hchs]
      rw [List.append_assoc, ← hA, List.take_left, List.take_left]
    · rw [hre, Nat.max_eq_right (Nat.le_of_lt hlt)]
      conv_rhs => rw [hchs]
      have hlen1 : (A ++ List.zipWith (fun (c : Channel) (i : String) => { c with id := i }) (M ++ [x])
          ((x :: M).map (fun (c : Channel) => c.id))).length = dst + 1 := by
        rw [List.length_append, List.length_zipWith]
        simp only [List.length_append, List.length_map, List.length_cons]
        omega
      have hlen2 : (A ++ x :: M).length = dst + 1 := by
        rw [List.length_append, List.length_cons]
        omega
      rw [List.drop_left' hlen1]
      conv_rhs => rw [show A ++ x :: (M ++ C) = (A ++ x :: M) ++ C from by simp]
      rw [List.drop_left' hlen2]
  · -- dst < src
    have hlt : dst < src := by omega
    set A := chs.take dst with hAdef
    set x := chs.get ⟨src, hsrc⟩ with hxdef
    set M := (chs.drop dst).take (src - dst) with hMdef
    set C := chs.drop (src + 1) with hCdef
    have hA : A.length = dst := by
      rw [hAdef, List.length_take]; omega
    have hM : M.length = src - dst := by
      rw [hMdef, List.length_take, List.length_drop]; omega
    have hs2 : (chs.drop dst).drop (src - dst) = chs.drop src := by
      rw [List.drop_drop]
      congr 1
      omega
    have hdropd : chs.drop dst = M ++ x :: C := by
      conv_lhs => rw [← List.take_append_drop (src - dst) (chs.drop dst)]
      rw [hs2, hMdef, hCdef, List.drop_eq_getElem_cons hsrc]
      rfl
    have hchs : chs = A ++ (M ++ x :: C) := by
      conv_lhs => rw [← List.take_append_drop dst chs]
      rw [hdropd, hAdef]
    have hsrcAM : src = A.length + M.length := by omega
    have hdstA : dst = A.length := hA.symm
    have hre : reorder_rows chs src dst
        = A ++ List.zipWith (fun (c : Channel) (i : String) => { c with id := i }) (x :: M)
            ((M ++ [x]).map (fun c => c.id)) ++ C := by
      rw [hsrcAM, hdstA]
      conv_lhs => rw [hchs]
      exact reorder_rows_decomp_ge A M C x
    have hmv : listMove chs src dst = A ++ x :: (M ++ C) := by
      rw [hsrcAM, hdstA]
      conv_lhs => rw [hchs]
      exact listMove_decomp_ge A M C x
    have hzlen : (x :: M).length = ((M ++ [x]).map (fun c => c.id)).length := by simp
    refine ⟨?_, ?_, ?_, ?_⟩
    · rw [hre, map_id_assigned A (x :: M) C _ hzlen]
      conv_rhs => rw [hchs]
      simp
    · rw [hre, hmv, map_strip_assigned A (x :: M) C _ hzlen]
      simp
    · rw [hre, Nat.min_eq_right (Nat.le_of_lt hlt)]
      conv_rhs => rw [hchs]
      rw [List.append_assoc, ← hA, List.take_left, List.take_left]
    · rw [hre, Nat.max_eq_left (Nat.le_of_lt hlt)]
      conv_rhs => rw [hchs]
      have hlen1 : (A ++ List.zipWith (fun (c : Channel) (i : String) => { c with id := i }) (x :: M)
          ((M ++ [x]).map (fun (c : Channel) => c.id))).length = src + 1 := by
        rw [List.length_append, List.length_zipWith]
        simp only [List.length_append, List.length_map, List.length_cons]
        omega
      have hlen2 : (A ++ M ++ [x]).length = src + 1 := by
        simp only [List.length_append, List.length_cons, List.length_nil]
        omega
      rw [List.drop_left' hlen1]
      conv_rhs => rw [show A ++ (M ++ x :: C) = (A ++ M ++ [x]) ++ C from by simp]
      rw [List.drop_left' hlen2]

/-- C2 witness: the contract applied to the concrete §8 registry and the
move `reorder(0, 3)`. -/
theorem c2_reorder_identity_contract_witness :
    (reorder_rows reg5 0 3).map (fun c => c.id) = reg5.map (fun c => c.id)
    ∧ (reorder_rows reg5 0 3).map stripId = (listMove reg5 0 3).map stripId
    ∧ (reorder_rows reg5 0 3).take (min 0 3) = reg5.take (min 0 3)
    ∧ (reorder_rows reg5 0 3).drop (max 0 3 + 1) = reg5.drop (max 0 3 + 1) :=
  c2_reorder_identity_contract reg5 0 3 (by decide) (by decide) (by decide)

/-- One step of the restart loop's backoff update in `stream_generator`:
`backoff = 1.0 if any_bytes else min(backoff * 1.7, 10.0)`.  The Python
floats are modelled as rationals; the constant 1.7 and the bounds 1 and 10
are exactly representable in binary floating point products compared
against 10, so the monotonicity/cap/reset conclusions carry over. -/
def backoffStep (backoff : ℚ) (any_bytes : Bool) : ℚ :=
  if any_bytes then 1 else min (backoff * (17 / 10)) 10

/-- The backoff value held after a list of completed pipeline attempts
(each flagged with whether it relayed any bytes).  `stream_generator`
initialises the value to 1.0 and sleeps for exactly this value before the
respawn that follows the last listed attempt. -/
def backoffAfter (outcomes : List Bool) : ℚ :=
  outcomes.foldl backoffStep 1

lemma backoffAfter_append (l : List Bool) (b : Bool) :
    backoffAfter (l ++ [b]) = backoffStep (backoffAfter l) b := by
  unfold backoffAfter
  rw [List.foldl_append]
  rfl

lemma foldl_backoff_bounds (l : List Bool) :
    ∀ b : ℚ, 1 ≤ b → b ≤ 10 → 1 ≤ l.foldl backoffStep b ∧ l.foldl backoffStep b ≤ 10 := by
  induction l with
  | nil => intro b h1 h2; exact ⟨h1, h2⟩
  | cons a t ih =>
    intro b h1 h2
    apply ih
    · unfold backoffStep
      cases a with
      | true => simp
      | false =>
        simp only [Bool.false_eq_true, if_false, le_min_iff]
        constructor
        · nlinarith
        · norm_num
    · unfold backoffStep
      cases a with
      | true => simp
      | false =>
        simp only [Bool.false_eq_true, if_false]
        exact min_le_right _ _

/-- C5: in the `stream_generator` restart loop, the backoff delay starts
at 1 time unit; it always stays within the floor 1 and the cap 10; after
an attempt that relayed zero bytes the observed delay is the previous one
multiplied by 1.7 and capped at 10 — strictly larger than the previous
delay whenever that was below the cap; and after any attempt that relayed
at least one byte the delay resets to exactly 1. -/
theorem c5_backoff_policy (outcomes : List Bool) :
    backoffAfter [] = 1
    ∧ (1 ≤ backoffAfter outcomes ∧ backoffAfter outcomes ≤ 10)
    ∧ backoffAfter (outcomes ++ [false]) = min (backoffAfter outcomes * (17 / 10)) 10
    ∧ (backoffAfter outcomes < 10 →
        backoffAfter outcomes < backoffAfter (outcomes ++ [false]))
    ∧ backoffAfter (outcomes ++ [true]) = 1 := by
  have hb := foldl_backoff_bounds outcomes 1 (le_refl 1) (by norm_num)
  refine ⟨rfl, hb, ?_, ?_, ?_⟩
  · rw [backoffAfter_append]
    rfl
  · intro hlt
    have hb1 : 1 ≤ backoffAfter outcomes := hb.1
    rw [backoffAfter_append]
    unfold backoffStep
    simp only [Bool.false_eq_true, if_false, lt_min_iff]
    constructor
    · nlinarith [hb1]
    · exact hlt
  · rw [backoffAfter_append]
    rfl

/-- C5 witness: after one zero-byte attempt the delay is 1.7, which is
below the cap, so a second zero-byte attempt strictly increases it. -/
theorem c5_backoff_policy_witness :
    backoffAfter [false] < backoffAfter ([false] ++ [false]) := by
  apply (c5_backoff_policy [false]).2.2.2.1
  show min ((1 : ℚ) * (17 / 10)) 10 < 10
  rw [min_eq_left (by norm_num)]
  norm_num

/-- Split a character list at the first occurrence of `c` (the split
character is dropped), or `none` when it does not occur. -/
def splitFirst (c : Char) : List Char → Option (List Char × List Char)
  | [] => none
  | a :: t =>
    if a = c then some ([], t)
    else
      match splitFirst c t with
      | some p => some (a :: p.1, p.2)
      | none => none

/-- Characters legal in a URL scheme after the first (CPython
`scheme_chars`). -/
def schemeChar (c : Char) : Bool := c.isAlphanum || c = '+' || c = '-' || c = '.'

/-- Scheme detection of `urllib.parse.urlsplit`: the part before the first
`:` when it is a nonempty valid scheme (lower-cased), else no scheme. -/
def parseScheme (l : List Char) : List Char × List Char :=
  match splitFirst ':' l with
  | some (pre, post) =>
    if pre ≠ [] ∧ (pre.headD ' ').isAlpha ∧ pre.all schemeChar then (pre.map Char.toLower, post)
    else ([], l)
  | none => ([], l)

/-- A character ending the netloc of a URL. -/
def netDelim (c : Char) : Bool := c = '/' || c = '?' || c = '#'

/-- Netloc detection of `urlsplit`: after a leading `//`, up to the first
`/`, `?` or `#`. -/
def parseNetloc : List Char → List Char × List Char
  | '/' :: '/' :: r => (r.takeWhile (fun c => !netDelim c), r.dropWhile (fun c => !netDelim c))
  | l => ([], l)

/-- Split at the first occurrence of `c`, keeping everything when absent
(`str.split(c, 1)` as used for `#` and `?` in `urlsplit`). -/
def splitAtChar (c : Char) (l : List Char) : List Char × List Char :=
  match splitFirst c l with
  | some p => p
  | none => (l, [])

/-- The username/password of a netloc: the part before the *last* `@`
(`rpartition`), split at its first `:`; both empty when there is no `@`
(Python yields `None`, which is falsy exactly like the empty string in
every use made of it). -/
def parseUserinfo (netloc : List Char) : List Char × List Char :=
  match splitFirst '@' netloc.reverse with
  | some (_, berev) =>
    (match splitFirst ':' berev.reverse with
      | some p => p
      | none => (berev.reverse, []))
  | none => ([], [])

/-- The result of `urllib.parse.urlparse` as used by `Channel.auth_url`
(`params` is kept inside `path`, which `urlunparse` re-joins identically). -/
structure UrlParts where
  scheme : String
  netloc : String
  path : String
  query : String
  fragment : String
  username : String
  password : String
deriving DecidableEq

/-- `urllib.parse.urlsplit` (scheme, `//netloc`, fragment at first `#`,
query at first `?`, credentials from the netloc). -/
def urlsplitM (url : String) : UrlParts :=
  let sch := parseScheme url.data
  let nl := parseNetloc sch.2
  let fr := splitAtChar '#' nl.2
  let qu := splitAtChar '?' fr.1
  let up := parseUserinfo nl.1
  { scheme := String.mk sch.1, netloc := String.mk nl.1, path := String.mk qu.1,
    query := String.mk qu.2, fragment := String.mk fr.2,
    username := String.mk up.1, password := String.mk up.2 }

/-- The netloc step of `urlunsplit`: `//` plus the netloc, the path
forced to start with `/`. -/
def addNetloc (netloc path : String) : String :=
  if netloc ≠ "" ∨ strStarts path "//" then
    "//" ++ netloc ++ (if path ≠ "" ∧ ¬ strStarts path "/" then "/" ++ path else path)
  else path

/-- The scheme step of `urlunsplit`. -/
def addScheme (scheme url : String) : String :=
  if scheme ≠ "" then scheme ++ ":" ++ url else url

/-- The query step of `urlunsplit`. -/
def addQuery (query url : String) : String :=
  if query ≠ "" then url ++ "?" ++ query else url

/-- The fragment step of `urlunsplit`. -/
def addFragment (fragment url : String) : String :=
  if fragment ≠ "" then url ++ "#" ++ fragment else url

/-- `urllib.parse.urlunparse` on parts whose params component is empty
(ours lives inside `path`). -/
def urlunparseM (scheme netloc path query fragment : String) : String :=
  addFragment fragment (addQuery query (addScheme scheme (addNetloc netloc path)))

/-- UTF-8 bytes (as naturals) of a code point. -/
def utf8BytesM (n : Nat) : List Nat :=
  if n < 128 then [n]
  else if n < 2048 then [192 + n / 64, 128 + n % 64]
  else if n < 65536 then [224 + n / 4096, 128 + (n / 64) % 64, 128 + n % 64]
  else [240 + n / 262144, 128 + (n / 4096) % 64, 128 + (n / 64) % 64, 128 + n % 64]

/-- Uppercase hex digit. -/
def hexDigitM (n : Nat) : Char := if n < 10 then Char.ofNat (48 + n) else Char.ofNat (55 + n)

/-- The characters `urllib.parse.quote` never encodes (`_ALWAYS_SAFE`,
with `safe=""`). -/
def alwaysSafe (c : Char) : Bool :=
  c.isAlphanum || c = '_' || c = '.' || c = '-' || c = '~'

/-- `urllib.parse.quote(s, safe="")`: every byte of every character
outside the always-safe set becomes `%XX` with uppercase hex. -/
def quoteM (s : String) : String :=
  String.mk (s.data.flatMap (fun c =>
    if alwaysSafe c then [c]
    else (utf8BytesM c.toNat).flatMap (fun b => ['%', hexDigitM (b / 16), hexDigitM (b % 16)])))

/-- UTF-8 encoding of a whole string, as bytes. -/
def strUtf8 (s : String) : List Nat := s.data.flatMap (fun c => utf8BytesM c.toNat)

/-- The base64 alphabet. -/
def B64_ALPHABET : List Char :=
  "ABCDEFGHIJKLMNOPQRSTUVWXYZabcdefghijklmnopqrstuvwxyz0123456789+/".data

/-- `base64.b64encode` over bytes (with `=` padding). -/
def b64encodeM : List Nat → List Char
  | [] => []
  | [b1] => [B64_ALPHABET.getD (b1 / 4) '=', B64_ALPHABET.getD (b1 % 4 * 16) '=', '=', '=']
  | [b1, b2] =>
    [B64_ALPHABET.getD (b1 / 4) '=', B64_ALPHABET.getD (b1 % 4 * 16 + b2 / 16) '=',
      B64_ALPHABET.getD (b2 % 16 * 4) '=', '=']
  | b1 :: b2 :: b3 :: rest =>
    B64_ALPHABET.getD (b1 / 4) '=' :: B64_ALPHABET.getD (b1 % 4 * 16 + b2 / 16) '='
      :: B64_ALPHABET.getD (b2 % 16 * 4 + b3 / 64) '=' :: B64_ALPHABET.getD (b3 % 64) '='
      :: b64encodeM rest

/-- `Channel.auth_url`: RTSP credential injection.  Credentials are
injected only when the scheme starts with "rtsp", the URL itself embeds
no (truthy) username or password, and at least one of the channel's
username/password is nonempty; otherwise `rtsp` is returned unchanged. -/
def Channel.auth_url (ch : Channel) : String :=
  let p := urlsplitM ch.rtsp
  if strStarts (pyLower p.scheme) "rtsp" then
    if p.username ≠ "" ∨ p.password ≠ "" ∨ (ch.username = "" ∧ ch.password = "") then ch.rtsp
    else
      urlunparseM p.scheme
        (match splitFirst ':' p.netloc.data with
          | some hp =>
            quoteM ch.username ++ ":" ++ quoteM ch.password ++ "@"
              ++ String.mk hp.1 ++ ":" ++ String.mk hp.2
          | none => quoteM ch.username ++ ":" ++ quoteM ch.password ++ "@" ++ p.netloc)
        p.path p.query p.fragment
  else ch.rtsp

/-- `Channel.basic_auth_header`. -/
def Channel.basic_auth_header (ch : Channel) : Option String :=
  if ch.auth_mode ≠ "Header-Basic" then none
  else some ("Authorization: Basic "
    ++ String.mk (b64encodeM (strUtf8 (ch.username ++ ":" ++ ch.password))))

/-- `Channel.merged_headers` (one possible header line, else ""). -/
def Channel.merged_headers (ch : Channel) : String :=
  match ch.basic_auth_header with
  | some bh => bh
  | none => ""

/-- The transcoder executable; located on the filesystem by the source, an
abstract constant here (no claim depends on its value). -/
def FFMPEG : String := "ffmpeg"

/-- The fixed user agent `UA`. -/
def UA : String := "LibVLC/3.0.20 (LIVE555 Streaming Media v2021.12.30)"

/-- `_ffmpeg_input_for_channel`: per-input transport flags, latency flags,
optional headers, then `-i <auth_url>`. -/
def ffmpeg_input_for_channel (ch : Channel) : List String :=
  (if ch.transport = "TCP" ∧ strStarts (pyLower ch.rtsp) "rtsp://" then
      ["-rtsp_transport", "tcp", "-rtsp_flags", "prefer_tcp"]
    else if ch.transport = "UDP" ∧ strStarts (pyLower ch.rtsp) "rtsp://" then
      ["-rtsp_transport", "udp"]
    else [])
  ++ ["-fflags", "nobuffer", "-flags", "low_delay", "-analyzeduration", "100000",
      "-probesize", "32768", "-user_agent", UA]
  ++ (if ch.merged_headers ≠ "" then ["-headers", ch.merged_headers] else [])
  ++ ["-i", ch.auth_url]

/-- Python `sep.join(parts)`. -/
def pyJoin (sep : String) : List String → String
  | [] => ""
  | [x] => x
  | x :: y :: rest => x ++ sep ++ pyJoin sep (y :: rest)

/-- `_mosaic_filter_and_layout`: the scale/pad chain per input, the xstack
layout for 2, 3 or else 4+ tiles, and the output label `[vout]`. -/
def mosaic_filter_and_layout (n_inputs : Nat) : String × String :=
  let chains := (List.range n_inputs).map (fun i =>
    "[" ++ natToStrM i
      ++ ":v]scale=640:360:force_original_aspect_ratio=decrease,pad=640:360:( 640-iw)/2:( 360-ih)/2:black,setsar=1[v"
      ++ natToStrM i ++ "]")
  let labels := (List.range n_inputs).map (fun i => "[v" ++ natToStrM i ++ "]")
  let layout :=
    if n_inputs = 2 then "0_0|640_0"
    else if n_inputs = 3 then "0_0|640_0|0_360"
    else "0_0|640_0|0_360|640_360"
  let x_n := min n_inputs 4
  (pyJoin ";" (chains ++ [String.join (labels.take x_n) ++ "xstack=inputs=" ++ natToStrM x_n
    ++ ":layout=" ++ layout ++ ":fill=black[vout]"]), "[vout]")

/-- `{c.id: c for c in CHANNELS}` followed by a dict lookup: the *last*
channel carrying the id wins, as in a Python dict comprehension. -/
def idLookup (registry : List Channel) (i : String) : Option Channel :=
  registry.foldl (fun acc c => if c.id = i then some c else acc) none

/-- The single-source ("proven copy path") branch of
`ffmpeg_cmd_for_channel`: H.264 copy with annex-B conversion and
access-unit-delimiter insertion, AAC transcode or audio copy, and the
discontinuity-tolerant mpegts mux tail. -/
def ffmpeg_cmd_single (cfgName : String) (ch : Channel) : List String :=
  [FFMPEG, "-nostats", "-loglevel", "error"]
  ++ ffmpeg_input_for_channel ch
  ++ ["-map", "0:v:0", "-map", "0:a:0?", "-c:v", "copy",
      "-bsf:v", "h264_mp4toannexb,h264_metadata=aud=insert"]
  ++ (if ch.transcode_audio then ["-c:a", "aac", "-ar", "44100", "-ac", "2", "-b:a", "128k"]
      else ["-c:a", "copy"])
  ++ ["-flush_packets", "1", "-muxpreload", "0", "-muxdelay", "0",
      "-mpegts_flags", "+initial_discontinuity+resend_headers", "-pat_period", "0.2",
      "-metadata", "service_provider=" ++ cfgName, "-metadata", "service_name=" ++ ch.name,
      "-f", "mpegts", "pipe:1"]

/-- `ffmpeg_cmd_for_channel`.  `registry` is the `CHANNELS` snapshot read
under the lock and `cfgName` is `SERVER_CFG['name']`.  A mosaic channel
with at least 2 declared members resolves them through the registry in
declared order, keeps the first 4, and builds the composite command; when
fewer than 2 members resolve, the source recursively calls itself on a
channel rebuilt by the constructor *without* `mosaic_sources` (same id,
name, rtsp, transport, credentials, auth mode and audio flag), which takes
the single-source path — that recursion is unrolled here. -/
def ffmpeg_cmd_for_channel (cfgName : String) (registry : List Channel) (ch : Channel) :
    List String :=
  match ch.mosaic_sources with
  | some ms =>
    if 2 ≤ ms.length then
      if ((ms.filterMap (idLookup registry)).take 4).length < 2 then
        ffmpeg_cmd_single cfgName (mkChannel ch.id ch.name ch.rtsp ch.transport ch.username
          ch.password ch.auth_mode ch.transcode_audio none "" none "Live feed" none)
      else
        [FFMPEG, "-nostats", "-loglevel", "error"]
        ++ ((ms.filterMap (idLookup registry)).take 4).flatMap ffmpeg_input_for_channel
        ++ ["-filter_complex",
            (mosaic_filter_and_layout ((ms.filterMap (idLookup registry)).take 4).length).1,
            "-map", (mosaic_filter_and_layout ((ms.filterMap (idLookup registry)).take 4).length).2,
            "-map", "0:a:0?"]
        ++ ["-c:v", "libx264", "-preset", "veryfast", "-tune", "zerolatency",
            "-g", "60", "-keyint_min", "60", "-pix_fmt", "yuv420p"]
        ++ (if ch.transcode_audio then ["-c:a", "aac", "-ar", "44100", "-ac", "2", "-b:a", "128k"]
            else ["-c:a", "copy"])
        ++ ["-max_muxing_queue_size", "1024", "-flush_packets", "1",
            "-muxpreload", "0", "-muxdelay", "0",
            "-mpegts_flags", "+initial_discontinuity+resend_headers", "-pat_period", "0.2",
            "-metadata", "service_provider=" ++ cfgName, "-metadata", "service_name=" ++ ch.name,
            "-f", "mpegts", "pipe:1"]
    else ffmpeg_cmd_single cfgName ch
  | none => ffmpeg_cmd_single cfgName ch

/-- Every ffmpeg option flag appearing in the built commands that consumes
a following value argument. -/
def optFlags : List String :=
  ["-loglevel", "-rtsp_transport", "-rtsp_flags", "-fflags", "-flags", "-analyzeduration",
   "-probesize", "-user_agent", "-headers", "-i", "-filter_complex", "-map", "-c:v", "-bsf:v",
   "-preset", "-tune", "-g", "-keyint_min", "-pix_fmt", "-c:a", "-ar", "-ac", "-b:a",
   "-max_muxing_queue_size", "-flush_packets", "-muxpreload", "-muxdelay", "-mpegts_flags",
   "-pat_period", "-metadata", "-f"]

/-- The values an ffmpeg argument vector carries for one option flag, in
order.  Option values are consumed together with their flag, so a value is
never misread as a flag. -/
def flagValues (flag : String) : List String → List String
  | f :: v :: rest =>
    if f = flag then v :: flagValues flag rest
    else if f ∈ optFlags then flagValues flag rest
    else flagValues flag (v :: rest)
  | _ => []

lemma flagValues_input_i (s : Channel) (rest : List String) :
    flagValues "-i" (ffmpeg_input_for_channel s ++ rest)
      = s.auth_url :: flagValues "-i" rest := by
  unfold ffmpeg_input_for_channel
  by_cases hA : s.transport = "TCP" ∧ strStarts (pyLower s.rtsp) "rtsp://" = true <;>
    by_cases hB : s.transport = "UDP" ∧ strStarts (pyLower s.rtsp) "rtsp://" = true <;>
      by_cases hH : s.merged_headers ≠ "" <;>
        simp [hA, hB, hH, flagValues, optFlags]

lemma flagValues_input_map (s : Channel) (rest : List String) :
    flagValues "-map" (ffmpeg_input_for_channel s ++ rest) = flagValues "-map" rest := by
  unfold ffmpeg_input_for_channel
  by_cases hA : s.transport = "TCP" ∧ strStarts (pyLower s.rtsp) "rtsp://" = true <;>
    by_cases hB : s.transport = "UDP" ∧ strStarts (pyLower s.rtsp) "rtsp://" = true <;>
      by_cases hH : s.merged_headers ≠ "" <;>
        simp [hA, hB, hH, flagValues, optFlags]

lemma flagValues_input_fc (s : Channel) (rest : List String) :
    flagValues "-filter_complex" (ffmpeg_input_for_channel s ++ rest)
      = flagValues "-filter_complex" rest := by
  unfold ffmpeg_input_for_channel
  by_cases hA : s.transport = "TCP" ∧ strStarts (pyLower s.rtsp) "rtsp://" = true <;>
    by_cases hB : s.transport = "UDP" ∧ strStarts (pyLower s.rtsp) "rtsp://" = true <;>
      by_cases hH : s.merged_headers ≠ "" <;>
        simp [hA, hB, hH, flagValues, optFlags]

lemma flagValues_inputs_i (srcs : List Channel) (rest : List String) :
    flagValues "-i" (srcs.flatMap ffmpeg_input_for_channel ++ rest)
      = srcs.map Channel.auth_url ++ flagValues "-i" rest := by
  induction srcs with
  | nil => simp
  | cons s t ih =>
    rw [List.flatMap_cons, List.append_assoc, flagValues_input_i, ih]
    rfl

lemma flagValues_inputs_map (srcs : List Channel) (rest : List String) :
    flagValues "-map" (srcs.flatMap ffmpeg_input_for_channel ++ rest)
      = flagValues "-map" rest := by
  induction srcs with
  | nil => simp
  | cons s t ih => rw [List.flatMap_cons, List.append_assoc, flagValues_input_map, ih]

lemma flagValues_inputs_fc (srcs : List Channel) (rest : List String) :
    flagValues "-filter_complex" (srcs.flatMap ffmpeg_input_for_channel ++ rest)
      = flagValues "-filter_complex" rest := by
  induction srcs with
  | nil => simp
  | cons s t ih => rw [List.flatMap_cons, List.append_assoc, flagValues_input_fc, ih]

/-- The single-source command has exactly one input: the channel's
(credential-resolved) source URI. -/
lemma flagValues_i_single (cfg : String) (c : Channel) :
    flagValues "-i" (ffmpeg_cmd_single cfg c) = [c.auth_url] := by
  unfold ffmpeg_cmd_single
  by_cases h : c.transcode_audio <;>
    simp [h, FFMPEG, List.append_assoc, flagValues, optFlags, flagValues_input_i]

lemma append_colon_ne_empty (a b : String) : a ++ ":" ++ b ≠ "" := by
  intro he
  have hd := congrArg String.data he
  simp only [String.data_append, show (":" : String).data = [':'] from rfl,
    show ("" : String).data = [] from rfl] at hd
  simp at hd

lemma append_at_ne_empty (a b : String) : a ++ "@" ++ b ≠ "" := by
  intro he
  have hd := congrArg String.data he
  simp only [String.data_append, show ("@" : String).data = ['@'] from rfl,
    show ("" : String).data = [] from rfl] at hd
  simp at hd

lemma colon_slash_merge (x : String) : (":" : String) ++ ("//" ++ x) = "://" ++ x := by
  rw [← String.append_assoc]
  rfl

/-- When a scheme and a nonempty netloc are present, `urlunparse` yields
`scheme:`, `//`, the netloc, then the rest of the URL. -/
lemma urlunparseM_exists_tail (scheme netloc path query fragment : String)
    (hs : scheme ≠ "") (hn : netloc ≠ "") :
    ∃ r, urlunparseM scheme netloc path query fragment
      = scheme ++ ":" ++ ("//" ++ (netloc ++ r)) := by
  refine ⟨(if path ≠ "" ∧ ¬ strStarts path "/" = true then "/" ++ path else path)
      ++ ((if query ≠ "" then "?" ++ query else "")
        ++ (if fragment ≠ "" then "#" ++ fragment else "")), ?_⟩
  unfold urlunparseM addNetloc addScheme addQuery addFragment
  rw [if_pos (Or.inl hn), if_pos hs]
  by_cases hq : query ≠ "" <;> by_cases hf : fragment ≠ "" <;>
    simp [hq, hf, String.append_assoc]

/-- C6: `auth_url` carries the percent-encoded channel credentials in the
authority component exactly when the parsed scheme starts with "rtsp", the
URI embeds no (truthy) credentials of its own, and the channel's
username/password are not both empty; in every other case — embedded
credentials, a non-rtsp scheme, or empty channel credentials — the URI is
returned unmodified (so embedded credentials take precedence). -/
theorem c6_credential_injection (ch : Channel) :
    ((strStarts (pyLower (urlsplitM ch.rtsp).scheme) "rtsp" = true
        ∧ (urlsplitM ch.rtsp).username = "" ∧ (urlsplitM ch.rtsp).password = ""
        ∧ ¬(ch.username = "" ∧ ch.password = "")) →
      ∃ r : String, ch.auth_url
        = (urlsplitM ch.rtsp).scheme ++ "://" ++ quoteM ch.username ++ ":"
          ++ quoteM ch.password ++ "@" ++ r)
    ∧ (¬(strStarts (pyLower (urlsplitM ch.rtsp).scheme) "rtsp" = true
        ∧ (urlsplitM ch.rtsp).username = "" ∧ (urlsplitM ch.rtsp).password = ""
        ∧ ¬(ch.username = "" ∧ ch.password = "")) →
      ch.auth_url = ch.rtsp) := by
  constructor
  · rintro ⟨h1, h2, h3, h4⟩
    have hcond : ¬((urlsplitM ch.rtsp).username ≠ "" ∨ (urlsplitM ch.rtsp).password ≠ ""
        ∨ (ch.username = "" ∧ ch.password = "")) := by
      rw [not_or, not_or]
      exact ⟨by simpa using h2, by simpa using h3, h4⟩
    have hs : (urlsplitM ch.rtsp).scheme ≠ "" := by
      intro he
      rw [he] at h1
      exact absurd h1 (by decide)
    simp only [Channel.auth_url]
    rw [if_pos h1, if_neg hcond]
    cases hsp : splitFirst ':' (urlsplitM ch.rtsp).netloc.data with
    | some hp =>
      obtain ⟨r0, hr0⟩ := urlunparseM_exists_tail (urlsplitM ch.rtsp).scheme
        (quoteM ch.username ++ ":" ++ quoteM ch.password ++ "@"
          ++ String.mk hp.1 ++ ":" ++ String.mk hp.2)
        (urlsplitM ch.rtsp).path (urlsplitM ch.rtsp).query (urlsplitM ch.rtsp).fragment
        hs (append_colon_ne_empty _ _)
      refine ⟨String.mk hp.1 ++ ":" ++ String.mk hp.2 ++ r0, ?_⟩
      rw [hr0]
      simp [String.append_assoc, colon_slash_merge]
    | none =>
      obtain ⟨r0, hr0⟩ := urlunparseM_exists_tail (urlsplitM ch.rtsp).scheme
        (quoteM ch.username ++ ":" ++ quoteM ch.password ++ "@" ++ (urlsplitM ch.rtsp).netloc)
        (urlsplitM ch.rtsp).path (urlsplitM ch.rtsp).query (urlsplitM ch.rtsp).fragment
        hs (append_at_ne_empty _ _)
      refine ⟨(urlsplitM ch.rtsp).netloc ++ r0, ?_⟩
      rw [hr0]
      simp [String.append_assoc, colon_slash_merge]
  · intro hn
    simp only [Channel.auth_url]
    by_cases h1 : strStarts (pyLower (urlsplitM ch.rtsp).scheme) "rtsp" = true
    · rw [if_pos h1]
      have hor : (urlsplitM ch.rtsp).username ≠ "" ∨ (urlsplitM ch.rtsp).password ≠ ""
          ∨ (ch.username = "" ∧ ch.password = "") := by
        by_contra hno
        rw [not_or, not_or] at hno
        exact hn ⟨h1, by simpa using hno.1, by simpa using hno.2.1, hno.2.2⟩
      rw [if_pos hor]
    · rw [if_neg h1]

/-- A channel with credentials and a credential-free rtsp source, for the
C6 witness. -/
def c6chan : Channel :=
  { id := "1", name := "cam", rtsp := "rtsp://cam.local:554/stream", transport := "Auto",
    username := "bob", password := "p w", auth_mode := "Auto", transcode_audio := true,
    tvg_id := "cam.1", tvg_logo := "", epg_title := "cam", epg_desc := "Live feed",
    mosaic_sources := none, status := "Idle", status_detail := "" }

/-- C6 witness: the injection case at a concrete channel. -/
theorem c6_credential_injection_witness :
    ∃ r : String, c6chan.auth_url
      = (urlsplitM c6chan.rtsp).scheme ++ "://" ++ quoteM c6chan.username ++ ":"
        ++ quoteM c6chan.password ++ "@" ++ r :=
  (c6_credential_injection c6chan).1 ⟨by decide, by decide, by decide, by decide⟩

lemma mosaic_vout (n : Nat) : (mosaic_filter_and_layout n).2 = "[vout]" := rfl

set_option maxRecDepth 4000 in
/-- C7: for a mosaic channel whose declared member-id list has at least 2
entries and resolves — keeping only still-existing registry channels, in
the originally declared relative order, truncated to the first 4 — to at
least 2 channels, the built command's inputs are exactly those members'
resolved source URIs in that order (hence at most 4 inputs); its only
stream mappings are the composite video `[vout]` and `0:a:0?`, the audio
of input 0, which is the first resolvable member; the filter graph is the
mosaic graph for the member count; and that graph for 2, 3 and 4 tiles
scales each input to a 640×360 sub-tile and arranges them side-by-side on
the top row, two-up plus one at bottom-left, and as a 2×2 grid
respectively. -/
theorem c7_mosaic_composite (cfgName : String) (registry : List Channel) (ch : Channel)
    (ms : List String) (hms : ch.mosaic_sources = some ms) (hlen : 2 ≤ ms.length)
    (hres : 2 ≤ ((ms.filterMap (idLookup registry)).take 4).length) :
    flagValues "-i" (ffmpeg_cmd_for_channel cfgName registry ch)
        = ((ms.filterMap (idLookup registry)).take 4).map Channel.auth_url
    ∧ flagValues "-map" (ffmpeg_cmd_for_channel cfgName registry ch) = ["[vout]", "0:a:0?"]
    ∧ flagValues "-filter_complex" (ffmpeg_cmd_for_channel cfgName registry ch)
        = [(mosaic_filter_and_layout ((ms.filterMap (idLookup registry)).take 4).length).1]
    ∧ ((ms.filterMap (idLookup registry)).take 4).length ≤ 4
    ∧ (mosaic_filter_and_layout 2).1
        = "[0:v]scale=640:360:force_original_aspect_ratio=decrease,pad=640:360:( 640-iw)/2:( 360-ih)/2:black,setsar=1[v0];[1:v]scale=640:360:force_original_aspect_ratio=decrease,pad=640:360:( 640-iw)/2:( 360-ih)/2:black,setsar=1[v1];[v0][v1]xstack=inputs=2:layout=0_0|640_0:fill=black[vout]"
    ∧ (mosaic_filter_and_layout 3).1
        = "[0:v]scale=640:360:force_original_aspect_ratio=decrease,pad=640:360:( 640-iw)/2:( 360-ih)/2:black,setsar=1[v0];[1:v]scale=640:360:force_original_aspect_ratio=decrease,pad=640:360:( 640-iw)/2:( 360-ih)/2:black,setsar=1[v1];[2:v]scale=640:360:force_original_aspect_ratio=decrease,pad=640:360:( 640-iw)/2:( 360-ih)/2:black,setsar=1[v2];[v0][v1][v2]xstack=inputs=3:layout=0_0|640_0|0_360:fill=black[vout]"
    ∧ (mosaic_filter_and_layout 4).1
        = "[0:v]scale=640:360:force_original_aspect_ratio=decrease,pad=640:360:( 640-iw)/2:( 360-ih)/2:black,setsar=1[v0];[1:v]scale=640:360:force_original_aspect_ratio=decrease,pad=640:360:( 640-iw)/2:( 360-ih)/2:black,setsar=1[v1];[2:v]scale=640:360:force_original_aspect_ratio=decrease,pad=640:360:( 640-iw)/2:( 360-ih)/2:black,setsar=1[v2];[3:v]scale=640:360:force_original_aspect_ratio=decrease,pad=640:360:( 640-iw)/2:( 360-ih)/2:black,setsar=1[v3];[v0][v1][v2][v3]xstack=inputs=4:layout=0_0|640_0|0_360|640_360:fill=black[vout]" := by
  have hcmd : ffmpeg_cmd_for_channel cfgName registry ch
      = [FFMPEG, "-nostats", "-loglevel", "error"]
        ++ ((ms.filterMap (idLookup registry)).take 4).flatMap ffmpeg_input_for_channel
        ++ ["-filter_complex",
            (mosaic_filter_and_layout ((ms.filterMap (idLookup registry)).take 4).length).1,
            "-map", (mosaic_filter_and_layout ((ms.filterMap (idLookup registry)).take 4).length).2,
            "-map", "0:a:0?"]
        ++ ["-c:v", "libx264", "-preset", "veryfast", "-tune", "zerolatency",
            "-g", "60", "-keyint_min", "60", "-pix_fmt", "yuv420p"]
        ++ (if ch.transcode_audio then ["-c:a", "aac", "-ar", "44100", "-ac", "2", "-b:a", "128k"]
            else ["-c:a", "copy"])
        ++ ["-max_muxing_queue_size", "1024", "-flush_packets", "1",
            "-muxpreload", "0", "-muxdelay", "0",
            "-mpegts_flags", "+initial_discontinuity+resend_headers", "-pat_period", "0.2",
            "-metadata", "service_provider=" ++ cfgName, "-metadata", "service_name=" ++ ch.name,
            "-f", "mpegts", "pipe:1"] := by
    simp only [ffmpeg_cmd_for_channel, hms]
    rw [if_pos hlen, if_neg (Nat.not_lt.mpr hres)]
  refine ⟨?_, ?_, ?_, ?_, by decide, by decide, by decide⟩
  · rw [hcmd]
    by_cases hta : ch.transcode_audio <;>
      simp [hta, FFMPEG, List.append_assoc, flagValues, optFlags, flagValues_inputs_i]
  · rw [hcmd]
    by_cases hta : ch.transcode_audio <;>
      simp [hta, FFMPEG, List.append_assoc, flagValues, optFlags, flagValues_inputs_map,
        mosaic_vout]
  · rw [hcmd]
    by_cases hta : ch.transcode_audio <;>
      simp [hta, FFMPEG, List.append_assoc, flagValues, optFlags, flagValues_inputs_fc]
  · rw [List.length_take]
    omega

/-- C7 witness: a mosaic of three resolvable members out of four declared
(one was deleted from the registry). -/
theorem c7_mosaic_composite_witness :
    flagValues "-i" (ffmpeg_cmd_for_channel "CamIPTV"
        [testChan "1" "a", testChan "2" "b", testChan "3" "c"]
        { testChan "9" "m" with
          rtsp := "mosaic://1,2,5,3"
          mosaic_sources := some ["1", "2", "5", "3"] })
      = ((["1", "2", "5", "3"].filterMap
          (idLookup [testChan "1" "a", testChan "2" "b", testChan "3" "c"])).take 4).map
            Channel.auth_url :=
  (c7_mosaic_composite "CamIPTV" [testChan "1" "a", testChan "2" "b", testChan "3" "c"]
    { testChan "9" "m" with
      rtsp := "mosaic://1,2,5,3"
      mosaic_sources := some ["1", "2", "5", "3"] }
    ["1", "2", "5", "3"] (by decide) (by decide) (by decide)).1

/-- A mosaic channel (as the GUI creates it) two of whose members have
since been deleted, leaving one resolvable member. -/
def mosaicBroken : Channel :=
  { id := "9", name := "m", rtsp := "mosaic://7,8", transport := "Auto", username := "",
    password := "", auth_mode := "Auto", transcode_audio := true, tvg_id := "cam.9",
    tvg_logo := "", epg_title := "m", epg_desc := "Live feed",
    mosaic_sources := some ["7", "8"], status := "Idle", status_detail := "" }

/-- C4, counterexample: a mosaic channel with a single resolvable member
and no usable non-mosaic URI (its `rtsp` field holds the synthetic
`mosaic://7,8`, which `_validate_source` rejects).  The claim says an
`UnresolvableSourceError` must be surfaced; instead the builder emits a
(nonempty) single-input pipeline whose one input is that unusable
`mosaic://` string — no error value exists anywhere in the code. -/
theorem c4_fallback_counterexample :
    flagValues "-i" (ffmpeg_cmd_for_channel "CamIPTV" [testChan "7" "x"] mosaicBroken)
        = ["mosaic://7,8"]
    ∧ validate_source "mosaic://7,8" = false
    ∧ ffmpeg_cmd_for_channel "CamIPTV" [testChan "7" "x"] mosaicBroken ≠ [] := by
  decide

/-- C4, amended: when a mosaic's members resolve to fewer than 2 existing
channels, the builder always substitutes the degenerate single-source
command built from the channel's own `rtsp` field (constructor-copied
without `mosaic_sources`); it never emits a multi-input composite or a
zero-input pipeline — the command has exactly one input — but no
`UnresolvableSourceError` is ever surfaced, even when that `rtsp` field
holds only the synthetic unusable `mosaic://` string. -/
theorem c4_fallback_amended (cfgName : String) (registry : List Channel) (ch : Channel)
    (ms : List String) (hms : ch.mosaic_sources = some ms) (hlen : 2 ≤ ms.length)
    (hres : ((ms.filterMap (idLookup registry)).take 4).length < 2) :
    ffmpeg_cmd_for_channel cfgName registry ch
        = ffmpeg_cmd_single cfgName (mkChannel ch.id ch.name ch.rtsp ch.transport ch.username
            ch.password ch.auth_mode ch.transcode_audio none "" none "Live feed" none)
    ∧ (flagValues "-i" (ffmpeg_cmd_for_channel cfgName registry ch)).length = 1 := by
  have h1 : ffmpeg_cmd_for_channel cfgName registry ch
      = ffmpeg_cmd_single cfgName (mkChannel ch.id ch.name ch.rtsp ch.transport ch.username
          ch.password ch.auth_mode ch.transcode_audio none "" none "Live feed" none) := by
    simp only [ffmpeg_cmd_for_channel, hms]
    rw [if_pos hlen, if_pos hres]
  refine ⟨h1, ?_⟩
  rw [h1, flagValues_i_single]
  rfl

/-- C4 witness: the amended fallback at the concrete broken mosaic. -/
theorem c4_fallback_amended_witness :
    (flagValues "-i" (ffmpeg_cmd_for_channel "CamIPTV" [testChan "7" "x"] mosaicBroken)).length
      = 1 :=
  (c4_fallback_amended "CamIPTV" [testChan "7" "x"] mosaicBroken ["7", "8"]
    (by decide) (by decide) (by decide)).2

/-- Python `l.split(c)` over characters (every occurrence, empties kept). -/
def splitOnChar (c : Char) (l : List Char) : List (List Char) :=
  l.foldr (fun a acc =>
    if a = c then [] :: acc
    else
      match acc with
      | h :: t => (a :: h) :: t
      | [] => [[a]]) [[]]

/-- The member-id parsing of the mosaic dialogs:
`[s.strip() for s in src_str.split(",") if s.strip()]`. -/
def parseMosaicIds (s : String) : List String :=
  ((splitOnChar ',' s.data).map (fun w => pyStrip (String.mk w))).filter (fun t => t ≠ "")

/-- `MainWindow.on_edit_mosaic` (the state change after the dialog):
require at least two parsed member ids, then overwrite the row's
`mosaic_sources` (truncated to 4) and set its `rtsp` field to the
synthetic `mosaic://<ids>` string. -/
def on_edit_mosaic (chs : List Channel) (row : Nat) (src_str : String) : List Channel :=
  if h : row < chs.length then
    if (parseMosaicIds src_str).length < 2 then chs
    else
      chs.set row
        { chs.get ⟨row, h⟩ with
          mosaic_sources := some ((parseMosaicIds src_str).take 4)
          rtsp := "mosaic://" ++ pyJoin "," ((parseMosaicIds src_str).take 4) }
  else chs

/-- `MainWindow.on_add_mosaic` (the state change after the dialogs):
require at least two existing channels and at least two parsed member
ids, then append a constructor-built channel whose `rtsp` is the
synthetic `mosaic://<ids>` string (all parsed ids), whose members are the
first 4 parsed ids, and whose audio flag copies the first member's
(defaulting to transcode when it does not resolve). -/
def on_add_mosaic (chs : List Channel) (src_str name : String) : List Channel :=
  if chs.length < 2 then chs
  else if (parseMosaicIds src_str).length < 2 then chs
  else
    chs ++ [mkChannel (next_channel_id chs)
      (if name = "" then "Mosaic " ++ pyJoin "," (parseMosaicIds src_str) else name)
      ("mosaic://" ++ pyJoin "," (parseMosaicIds src_str)) "Auto" "" "" "Auto"
      (match idLookup chs ((parseMosaicIds src_str).headD "") with
        | none => true
        | some c => c.transcode_audio)
      none "" none "Live feed" (some ((parseMosaicIds src_str).take 4))]

lemma dropWhile_append_last (p : Char → Bool) (m : Char) (hm : ¬ p m = true) :
    ∀ l : List Char, (l ++ [m]).dropWhile p = l.dropWhile p ++ [m] := by
  intro l
  induction l with
  | nil => simp [List.dropWhile_cons_of_neg hm]
  | cons a t ih =>
    by_cases hpa : p a = true
    · rw [List.cons_append, List.dropWhile_cons_of_pos hpa, List.dropWhile_cons_of_pos hpa, ih]
    · rw [List.cons_append, List.dropWhile_cons_of_neg hpa, List.dropWhile_cons_of_neg hpa,
        List.cons_append]

/-- `_validate_source` rejects any string whose first character survives
lowering/stripping and is neither `r` nor `h`. -/
lemma validate_source_eq_false (s : String) (c0 : Char) (t : List Char)
    (hdata : s.data = c0 :: t)
    (hw : (Char.toLower c0).isWhitespace = false)
    (hr : Char.toLower c0 ≠ 'r') (hh : Char.toLower c0 ≠ 'h') :
    validate_source s = false := by
  unfold validate_source strStarts pyStrip pyLower
  rw [hdata]
  simp only [List.map_cons]
  rw [List.dropWhile_cons_of_neg (by simp [hw])]
  rw [List.reverse_cons, dropWhile_append_last _ _ (by simp [hw]), List.reverse_append]
  simp only [List.reverse_cons, List.reverse_nil, List.nil_append, List.singleton_append]
  simp [List.isPrefixOf,
    show ("rtsp://" : String).data = ['r', 't', 's', 'p', ':', '/', '/'] from rfl,
    show ("http://" : String).data = ['h', 't', 't', 'p', ':', '/', '/'] from rfl,
    show ("https://" : String).data = ['h', 't', 't', 'p', 's', ':', '/', '/'] from rfl,
    beq_iff_eq, Ne.symm hr, Ne.symm hh]

/-- The synthetic `mosaic://` source strings are never usable sources. -/
lemma validate_source_mosaic (x : String) : validate_source ("mosaic://" ++ x) = false :=
  validate_source_eq_false _ 'm' ("osaic://".data ++ x.data)
    (by
      rw [String.data_append,
        show ("mosaic://" : String).data = 'm' :: ("osaic://" : String).data from by decide,
        List.cons_append])
    (by decide) (by decide) (by decide)

lemma splitFirst_mosaic (r : List Char) :
    splitFirst ':' ('m' :: 'o' :: 's' :: 'a' :: 'i' :: 'c' :: ':' :: r)
      = some (['m', 'o', 's', 'a', 'i', 'c'], r) := by
  simp [splitFirst]

lemma parseScheme_mosaic (r : List Char) :
    parseScheme ('m' :: 'o' :: 's' :: 'a' :: 'i' :: 'c' :: ':' :: r)
      = (['m', 'o', 's', 'a', 'i', 'c'], r) := by
  unfold parseScheme
  rw [splitFirst_mosaic]
  simp [schemeChar,
    show ['m', 'o', 's', 'a', 'i', 'c'].map Char.toLower = ['m', 'o', 's', 'a', 'i', 'c'] from by
      decide]

/-- `auth_url` never touches a `mosaic://` source (its scheme is not an
rtsp scheme). -/
lemma auth_url_of_mosaic (c : Channel) (h : strStarts c.rtsp "mosaic://" = true) :
    c.auth_url = c.rtsp := by
  obtain ⟨t, ht⟩ := List.isPrefixOf_iff_prefix.mp h
  have hd : c.rtsp.data = 'm' :: 'o' :: 's' :: 'a' :: 'i' :: 'c' :: ':' :: '/' :: '/' :: t := by
    rw [← ht,
      show ("mosaic://" : String).data = ['m', 'o', 's', 'a', 'i', 'c', ':', '/', '/'] from by
        decide]
    simp
  have hscheme : (urlsplitM c.rtsp).scheme = String.mk ['m', 'o', 's', 'a', 'i', 'c'] := by
    show String.mk (parseScheme c.rtsp.data).1 = _
    rw [hd, parseScheme_mosaic]
  simp only [Channel.auth_url]
  rw [hscheme, if_neg (by decide)]

/-- C8: both mosaic-writing registry operations leave the touched channel
flagged as mosaic with its `rtsp` field holding the synthetic
`mosaic://<ids>` string, which `_validate_source` rejects, so a mosaic
channel never simultaneously carries a usable single-source URI; and a
mosaic whose member list resolves to fewer than two existing channels is
unstreamable: the fallback pipeline's only input is that unusable
`mosaic://` URI, so no input of the built command is a usable source. -/
theorem c8_mosaic_source_invariant :
    (∀ (chs : List Channel) (row : Nat) (s : String) (hrow : row < chs.length),
      2 ≤ (parseMosaicIds s).length →
      (on_edit_mosaic chs row s).get? row
          = some { chs.get ⟨row, hrow⟩ with
              mosaic_sources := some ((parseMosaicIds s).take 4)
              rtsp := "mosaic://" ++ pyJoin "," ((parseMosaicIds s).take 4) }
        ∧ validate_source ("mosaic://" ++ pyJoin "," ((parseMosaicIds s).take 4)) = false)
    ∧ (∀ (chs : List Channel) (s name : String), 2 ≤ chs.length →
        2 ≤ (parseMosaicIds s).length →
        ∃ newc : Channel, on_add_mosaic chs s name = chs ++ [newc]
          ∧ newc.rtsp = "mosaic://" ++ pyJoin "," (parseMosaicIds s)
          ∧ newc.mosaic_sources = some ((parseMosaicIds s).take 4)
          ∧ validate_source newc.rtsp = false)
    ∧ (∀ (cfgName : String) (registry : List Channel) (ch : Channel) (ms : List String),
        ch.mosaic_sources = some ms → 2 ≤ ms.length →
        ((ms.filterMap (idLookup registry)).take 4).length < 2 →
        strStarts ch.rtsp "mosaic://" = true →
        ∀ u ∈ flagValues "-i" (ffmpeg_cmd_for_channel cfgName registry ch),
          validate_source u = false) := by
  refine ⟨?_, ?_, ?_⟩
  · intro chs row s hrow hids
    constructor
    · unfold on_edit_mosaic
      rw [dif_pos hrow, if_neg (Nat.not_lt.mpr hids)]
      rw [List.get?_eq_getElem?]
      exact List.getElem?_set_eq_of_lt _ (by simpa using hrow)
    · exact validate_source_mosaic _
  · intro chs s name hchs hids
    refine ⟨mkChannel (next_channel_id chs)
      (if name = "" then "Mosaic " ++ pyJoin "," (parseMosaicIds s) else name)
      ("mosaic://" ++ pyJoin "," (parseMosaicIds s)) "Auto" "" "" "Auto"
      (match idLookup chs ((parseMosaicIds s).headD "") with
        | none => true
        | some c => c.transcode_audio)
      none "" none "Live feed" (some ((parseMosaicIds s).take 4)), ?_, ?_, ?_, ?_⟩
    · unfold on_add_mosaic
      rw [if_neg (Nat.not_lt.mpr hchs), if_neg (Nat.not_lt.mpr hids)]
    · rfl
    · show (match some ((parseMosaicIds s).take 4) with
        | some [] => none
        | some l => some l
        | none => none) = some ((parseMosaicIds s).take 4)
      have hne : (parseMosaicIds s).take 4 ≠ [] := by
        intro he
        have hlen0 := congrArg List.length he
        rw [List.length_take] at hlen0
        simp only [List.length_nil] at hlen0
        omega
      cases hts : (parseMosaicIds s).take 4 with
      | nil => exact absurd hts hne
      | cons a l => rfl
    · exact validate_source_mosaic _
  · intro cfgName registry ch ms hms hlen hres hpre u hu
    rw [(c4_fallback_amended cfgName registry ch ms hms hlen hres).1,
      flagValues_i_single] at hu
    have haurl : (mkChannel ch.id ch.name ch.rtsp ch.transport ch.username ch.password
        ch.auth_mode ch.transcode_audio none "" none "Live feed" none).auth_url = ch.rtsp :=
      auth_url_of_mosaic _ hpre
    rw [haurl] at hu
    rw [List.mem_singleton] at hu
    subst hu
    obtain ⟨t, ht⟩ := List.isPrefixOf_iff_prefix.mp hpre
    have : ch.rtsp = "mosaic://" ++ String.mk t := by
      apply String.ext
      rw [String.data_append, ← ht]
    rw [this]
    exact validate_source_mosaic _

/-- C8 witness: editing row 0 into a mosaic of channels 1 and 2 in a
concrete registry. -/
theorem c8_mosaic_source_invariant_witness :
    (on_edit_mosaic [testChan "1" "a", testChan "2" "b", testChan "3" "c"] 0 "1, 2").get? 0
        = some { testChan "1" "a" with
            mosaic_sources := some ["1", "2"]
            rtsp := "mosaic://1,2" }
      ∧ validate_source ("mosaic://" ++ pyJoin "," ((parseMosaicIds "1, 2").take 4)) = false := by
  have h := (c8_mosaic_source_invariant.1
    [testChan "1" "a", testChan "2" "b", testChan "3" "c"] 0 "1, 2" (by decide) (by decide))
  exact ⟨by rw [h.1]; decide, h.2⟩

/-- The two HTTP methods routed to `/auto/v<id>`. -/
inductive HttpMethod where
  | get
  | head
deriving DecidableEq

/-- The body of a modelled Flask response: empty, a JSON document, or the
open-ended byte relay of `stream_generator`, identified by the argument
vector of the pipeline it (re)spawns. -/
inductive RespBody where
  | empty
  | json (s : String)
  | stream (cmd : List String)
deriving DecidableEq

/-- A modelled Flask response. -/
structure HttpResponse where
  status : Nat
  mimetype : String
  headers : List (String × String)
  body : RespBody
deriving DecidableEq

/-- `_no_cache_head_response`: empty body, transport-stream media type,
no-cache headers. -/
def no_cache_head_response : HttpResponse :=
  { status := 200, mimetype := "video/mp2t",
    headers := [("Cache-Control", "no-cache, no-store, must-revalidate"),
      ("Pragma", "no-cache"), ("Expires", "0")],
    body := .empty }

/-- `_stream_response(stream_generator(ch))`: the open-ended pipeline byte
stream with the transport-stream media type and no-cache headers. -/
def stream_response (cmd : List String) : HttpResponse :=
  { status := 200, mimetype := "video/mp2t",
    headers := [("Cache-Control", "no-cache, no-store, must-revalidate"),
      ("Pragma", "no-cache"), ("Expires", "0")],
    body := .stream cmd }

/-- `jsonify({"error": "channel not found"}), 404`. -/
def not_found_response : HttpResponse :=
  { status := 404, mimetype := "application/json", headers := [],
    body := .json "\x7b\"error\": \"channel not found\"\x7d" }

/-- The `/auto/v<id>` (and `.ts` alias) handler `auto_v`: the id is
resolved against the registry first — the first channel whose id equals
`str(ch_num)` — and a 404 JSON error returned when absent, for both
methods; for a resolved channel, HEAD gets the empty no-cache response
and GET the pipeline byte stream of the channel. -/
def auto_v (cfgName : String) (registry : List Channel) (ch_num : Nat)
    (method : HttpMethod) : HttpResponse :=
  match registry.find? (fun c => c.id == natToStrM ch_num) with
  | none => not_found_response
  | some ch =>
    match method with
    | .head => no_cache_head_response
    | .get => stream_response (ffmpeg_cmd_for_channel cfgName registry ch)

/-- C10: for a HEAD request on an id matching no registry entry, the
server returns the 404 JSON not-found response — not the zero-length
success response: resolution happens before the method check and behaves
identically for GET and HEAD. -/
theorem c10_head_resolution (cfgName : String) (registry : List Channel) (n : Nat)
    (h : registry.find? (fun c => c.id == natToStrM n) = none) :
    auto_v cfgName registry n .head = not_found_response
    ∧ auto_v cfgName registry n .head = auto_v cfgName registry n .get
    ∧ not_found_response.status = 404
    ∧ not_found_response.body ≠ RespBody.empty := by
  unfold auto_v
  rw [h]
  exact ⟨rfl, rfl, rfl, by decide⟩

/-- C10 witness: HEAD for channel 5 against an empty registry is the 404
response. -/
theorem c10_head_resolution_witness :
    auto_v "CamIPTV" [] 5 .head = not_found_response :=
  (c10_head_resolution "CamIPTV" [] 5 (by decide)).1

/-- C9, counterexample: a HEAD request whose id is absent from the
Registry is answered with the 404 JSON response — it is not zero-length,
not 200, and does not carry the transport-stream media type, contradicting
the claim that on HEAD the response is always the zero-length
`video/mp2t` one. -/
theorem c9_auto_v_counterexample :
    auto_v "CamIPTV" [] 5 .head = not_found_response
    ∧ not_found_response.mimetype ≠ "video/mp2t"
    ∧ not_found_response.status ≠ 200
    ∧ not_found_response.body ≠ RespBody.empty := by
  decide

/-- C9, amended: for every GET or HEAD request to `/auto/v<id>` the id is
resolved via the Registry first; when no channel has that identifier both
methods return the 404 structured JSON not-found body; when a channel is
found, HEAD returns the zero-length response with the transport-stream
media type and no-cache headers, and GET returns the open-ended pipeline
byte stream of the resolved channel with the transport-stream media type
and no-cache headers. -/
theorem c9_auto_v_amended (cfgName : String) (registry : List Channel) (n : Nat) :
    (registry.find? (fun c => c.id == natToStrM n) = none →
      auto_v cfgName registry n .head = not_found_response
      ∧ auto_v cfgName registry n .get = not_found_response
      ∧ not_found_response.status = 404
      ∧ not_found_response.body = .json "\x7b\"error\": \"channel not found\"\x7d")
    ∧ (∀ ch, registry.find? (fun c => c.id == natToStrM n) = some ch →
      (auto_v cfgName registry n .head = no_cache_head_response
        ∧ no_cache_head_response.body = .empty
        ∧ no_cache_head_response.mimetype = "video/mp2t"
        ∧ ("Cache-Control", "no-cache, no-store, must-revalidate")
            ∈ no_cache_head_response.headers)
      ∧ (auto_v cfgName registry n .get
            = stream_response (ffmpeg_cmd_for_channel cfgName registry ch)
        ∧ (stream_response (ffmpeg_cmd_for_channel cfgName registry ch)).mimetype = "video/mp2t"
        ∧ ("Cache-Control", "no-cache, no-store, must-revalidate")
            ∈ (stream_response (ffmpeg_cmd_for_channel cfgName registry ch)).headers)) := by
  constructor
  · intro h
    unfold auto_v
    rw [h]
    exact ⟨rfl, rfl, rfl, rfl⟩
  · intro ch h
    unfold auto_v
    rw [h]
    exact ⟨⟨rfl, rfl, rfl, by decide⟩, rfl, rfl, by simp [stream_response]⟩

/-- C9 witness: HEAD for the present channel 5 is the zero-length
no-cache transport-stream response. -/
theorem c9_auto_v_amended_witness :
    auto_v "CamIPTV" [testChan "5" "e"] 5 .head = no_cache_head_response :=
  ((c9_auto_v_amended "CamIPTV" [testChan "5" "e"] 5).2 (testChan "5" "e") (by decide)).1.1

end PlexCam
